import Mathlib

/-
Verification of the snail-core collection orchestrator and upload pipeline.

This file gives a shallow embedding, in Lean 4, of the Python modules
src/snail_core/core.py, src/snail_core/uploader.py and src/snail_core/host_id.py,
and proves properties of the embedded definitions.

Modelling conventions:
- Python dicts whose insertion order matters are modelled as association lists.
- JSON-serialisable Python values are modelled by the inductive type Json.
  Numbers are modelled as integers (no claim depends on float behaviour).
- Exceptions are modelled with Except; a raised exception is an Except.error.
- The network is modelled by an oracle mapping the attempt number to the
  outcome of that HTTP POST; real time (sleeps) is modelled by an event trace.
-/

namespace SnailCore

/-- Model of a JSON-serialisable Python value (dicts keep insertion order). -/
inductive Json where
  | null
  | bool (b : Bool)
  | num (n : Int)
  | str (s : String)
  | arr (xs : List Json)
  | obj (kvs : List (String × Json))
deriving Repr

/-- Top-level keys of a JSON object (empty for non-objects). -/
def Json.keys : Json → List String
  | .obj kvs => kvs.map Prod.fst
  | _ => []

/-- Dict access: first binding of the key in an object, none otherwise. -/
def Json.lookup : Json → String → Option Json
  | .obj kvs, k => (kvs.find? (fun kv => kv.1 = k)).map Prod.snd
  | _, _ => none

/-- Python truthiness on JSON values: None, False, 0, empty string, empty
list and empty dict are falsy; everything else is truthy. -/
def Json.isFalsy : Json → Bool
  | .null => true
  | .bool b => !b
  | .num n => n = 0
  | .str s => s = ""
  | .arr xs => xs.isEmpty
  | .obj kvs => kvs.isEmpty

mutual

/-- Model of json.dumps on a Json value (insertion order preserved,
default separators). Escaping inside strings is not modelled; no claim
depends on the concrete characters of the rendered string. -/
def Json.render : Json → String
  | .null => "null"
  | .bool true => "true"
  | .bool false => "false"
  | .num n => toString n
  | .str s => "\"" ++ s ++ "\""
  | .arr xs => "[" ++ Json.renderList xs ++ "]"
  | .obj kvs => "\x7b" ++ Json.renderPairs kvs ++ "\x7d"

/-- Renders the elements of a JSON array, comma-separated. -/
def Json.renderList : List Json → String
  | [] => ""
  | [x] => Json.render x
  | x :: y :: xs => Json.render x ++ ", " ++ Json.renderList (y :: xs)

/-- Renders the key/value pairs of a JSON object, comma-separated. -/
def Json.renderPairs : List (String × Json) → String
  | [] => ""
  | [(k, v)] => "\"" ++ k ++ "\": " ++ Json.render v
  | (k, v) :: p :: xs => "\"" ++ k ++ "\": " ++ Json.render v ++ ", " ++ Json.renderPairs (p :: xs)

end

/-- UTF-8 encoding of one code point (str.encode in upload). -/
def utf8Bytes (c : Char) : List Nat :=
  let n := c.toNat
  if n < 0x80 then [n]
  else if n < 0x800 then [0xC0 + n / 0x40, 0x80 + n % 0x40]
  else if n < 0x10000 then [0xE0 + n / 0x1000, 0x80 + n / 0x40 % 0x40, 0x80 + n % 0x40]
  else [0xF0 + n / 0x40000, 0x80 + n / 0x1000 % 0x40, 0x80 + n / 0x40 % 0x40, 0x80 + n % 0x40]

/-- Model of s.encode("utf-8"): the UTF-8 byte sequence of a string. -/
def utf8Encode (s : String) : List Nat :=
  s.data.flatMap utf8Bytes

/-- Embeds the CollectionReport dataclass of core.py (results is the dict
of per-collector data, errors the list of failure strings). -/
structure CollectionReport where
  hostname : String
  host_id : String
  collection_id : String
  timestamp : String
  snail_version : String
  results : List (String × Json) := []
  errors : List String := []
deriving Repr

/-- Embeds CollectionReport.to_dict (core.py lines 48-60): the serialized
report with top-level sections meta, data and errors; meta holds the
identity fields under the keys written in the source. -/
def CollectionReport.to_dict (r : CollectionReport) : Json :=
  .obj
    [ ("meta", .obj
        [ ("hostname", .str r.hostname)
        , ("host_id", .str r.host_id)
        , ("collection_id", .str r.collection_id)
        , ("timestamp", .str r.timestamp)
        , ("snail_version", .str r.snail_version) ])
    , ("data", .obj r.results)
    , ("errors", .arr (r.errors.map Json.str)) ]

/-- Outcome of running one collector: its data on success, or the message
of the exception it raised. -/
abbrev CollectorOutcome := Except String Json

/-- Boolean success test on a collector outcome. -/
def outcomeOk : CollectorOutcome → Bool
  | .ok _ => true
  | .error _ => false

/-- The error string appended for a failing collector (core.py line 140). -/
def collectorErrMsg (name e : String) : String :=
  "Collector \x27" ++ name ++ "\x27 failed: " ++ e

/-- Embeds the collector loop of SnailCore.collect (core.py lines 128-143):
successes are inserted into the results dict under the collector name,
failures append a formatted message to the errors list, and the loop
always continues to the next collector. -/
def runCollectors (rep : CollectionReport) : List (String × CollectorOutcome) → CollectionReport
  | [] => rep
  | c :: cs =>
    match c.2 with
    | .ok data => runCollectors { rep with results := rep.results ++ [(c.1, data)] } cs
    | .error e => runCollectors { rep with errors := rep.errors ++ [collectorErrMsg c.1 e] } cs

/-- The results entries produced by a run: one per succeeding collector. -/
def resultsOf (cs : List (String × CollectorOutcome)) : List (String × Json) :=
  cs.filterMap (fun c =>
    match c.2 with
    | .ok data => some (c.1, data)
    | .error _ => none)

/-- The errors entries produced by a run: one per failing collector. -/
def errorsOf (cs : List (String × CollectorOutcome)) : List String :=
  cs.filterMap (fun c =>
    match c.2 with
    | .ok _ => none
    | .error e => some (collectorErrMsg c.1 e))

/-- Embeds the working-set resolution of SnailCore.collect (core.py lines
119-124): a None or empty name list is falsy, so all registered collectors
run; otherwise the registry dict is filtered to the names in the list. -/
def resolveWorkingSet (registry : List (String × CollectorOutcome))
    (collector_names : Option (List String)) : List (String × CollectorOutcome) :=
  match collector_names with
  | none => registry
  | some ns => if ns.isEmpty then registry else registry.filter (fun c => ns.contains c.1)

/-- Embeds SnailCore.collect (core.py lines 88-144): build a report with
the identity fields and empty results/errors, resolve the working set,
and run every collector in it. -/
def collect (registry : List (String × CollectorOutcome))
    (hostname host_id collection_id timestamp version : String)
    (collector_names : Option (List String)) : CollectionReport :=
  runCollectors
    { hostname := hostname, host_id := host_id, collection_id := collection_id
    , timestamp := timestamp, snail_version := version }
    (resolveWorkingSet registry collector_names)

/-- The configuration fields the uploader reads (config.py lines 35-54). -/
structure Config where
  upload_url : Option String := none
  upload_enabled : Bool := true
  upload_timeout : Nat := 30
  upload_retries : Nat := 3
  compress_output : Bool := true

/-- An HTTP response through the requests API surface the uploader uses:
status code, body text, and the value of response.json() — none models a
ValueError raised on a non-JSON body. The requests library defines
response.ok as status_code < 400. -/
structure HttpResponse where
  status_code : Nat
  text : String := ""
  jsonBody : Option Json := none

/-- Outcome of one session.post call (uploader.py lines 125-130 and the
exception classes caught at lines 167-177). -/
inductive AttemptOutcome where
  | resp (r : HttpResponse)
  | timeout
  | connectionError (e : String)
  | requestError (e : String)

/-- Observable side effects of the retry loop: one request event per
session.post call, one sleep event per backoff wait. -/
inductive Event where
  | request (attempt : Nat)
  | sleep (seconds : Nat)
deriving DecidableEq, Repr

/-- Boolean test for a request event in a trace. -/
def isRequestEv : Event → Bool
  | .request _ => true
  | .sleep _ => false

/-- Embeds the UploadResult dataclass (uploader.py lines 25-34), minus the
wall-clock duration field. -/
structure UploadResult where
  success : Bool
  status_code : Option Nat := none
  response_data : Option Json := none
  error : Option String := none
  attempts : Nat := 1
deriving Repr

/-- The error string recorded for a non-2xx response (uploader.py lines
158 and 164): HTTP status and the first 200 characters of the body. -/
def httpErrMsg (r : HttpResponse) : String :=
  "HTTP " ++ toString r.status_code ++ ": " ++ r.text.take 200

/-- The events of one attempt that recorded a retryable failure: the post,
then the capped exponential backoff sleep — unless this was the final
attempt (uploader.py lines 179-183). -/
def backoffEvents (retries attempt : Nat) : List Event :=
  if attempt < retries then [Event.request attempt, Event.sleep (min (2 ^ attempt) 30)]
  else [Event.request attempt]

/-- Embeds the loop body of Uploader._upload_with_retry (uploader.py lines
119-189) as recursion over the list of remaining attempt numbers (the
Python loop runs attempt = 1 .. upload_retries). The oracle gives the
outcome of the session.post call of each attempt; the returned trace
records posts and backoff sleeps in order. -/
def retryGo (oracle : Nat → AttemptOutcome) (retries : Nat) (last_error : Option String) :
    List Nat → UploadResult × List Event
  | [] => ({ success := false, error := last_error, attempts := retries }, [])
  | attempt :: rest =>
    match oracle attempt with
    | .resp r =>
      if r.status_code < 400 then
        let response_data :=
          match r.jsonBody with
          | some v => v
          | none => Json.obj [("status", Json.str "ok"), ("raw", Json.str (r.text.take 500))]
        ({ success := true, status_code := some r.status_code
         , response_data := some response_data, attempts := attempt }, [Event.request attempt])
      else if r.status_code = 400 ∨ r.status_code = 401 ∨ r.status_code = 403 ∨ r.status_code = 404 then
        ({ success := false, status_code := some r.status_code
         , error := some (httpErrMsg r), attempts := attempt }, [Event.request attempt])
      else
        let res := retryGo oracle retries (some (httpErrMsg r)) rest
        (res.1, backoffEvents retries attempt ++ res.2)
    | .timeout =>
        let res := retryGo oracle retries (some "Request timed out") rest
        (res.1, backoffEvents retries attempt ++ res.2)
    | .connectionError e =>
        let res := retryGo oracle retries (some ("Connection error: " ++ e)) rest
        (res.1, backoffEvents retries attempt ++ res.2)
    | .requestError e =>
        let res := retryGo oracle retries (some ("Request error: " ++ e)) rest
        (res.1, backoffEvents retries attempt ++ res.2)

/-- Embeds Uploader._upload_with_retry: the loop over attempts 1..retries. -/
def uploadWithRetry (oracle : Nat → AttemptOutcome) (retries : Nat) : UploadResult × List Event :=
  retryGo oracle retries none (List.range' 1 retries)

/-- Python f-string rendering of an optional error string (None prints as
the four characters None). -/
def optErrStr (o : Option String) : String := o.getD "None"

/-- The UploadError message raised on overall failure (uploader.py line
108): the attempt count and the last recorded cause. -/
def uploadFailMsg (attempts : Nat) (cause : String) : String :=
  "Upload failed after " ++ toString attempts ++ " attempts: " ++ cause

/-- Python expression result.response_data or ... with an empty-dict
fallback (uploader.py line 110): a missing or falsy decoded body is
replaced by the empty object. -/
def pyOrEmpty (o : Option Json) : Json :=
  match o with
  | none => Json.obj []
  | some v => if v.isFalsy then Json.obj [] else v

/-- Embeds the body preparation of Uploader.upload (uploader.py lines
92-102): serialize report.to_dict to JSON text, UTF-8 encode, and apply
gzip.compress (modelled by the compressFn parameter) plus a
Content-Encoding header when compression is enabled. Returns the posted
bytes and the extra headers. -/
def uploadBody (compressFn : List Nat → List Nat) (compress_output : Bool)
    (report : CollectionReport) : List Nat × List (String × String) :=
  let json_data := Json.render (CollectionReport.to_dict report)
  if compress_output then (compressFn (utf8Encode json_data), [("Content-Encoding", "gzip")])
  else (utf8Encode json_data, [])

/-- Embeds Uploader.upload (uploader.py lines 70-110): require a URL,
prepare the body, run the retry engine, and either return the decoded
response with the falsy-body fallback, or raise UploadError naming the
attempt count and last cause. -/
def Uploader.upload (cfg : Config) (report : CollectionReport)
    (compressFn : List Nat → List Nat) (oracle : Nat → AttemptOutcome) :
    Except String Json × List Event :=
  match cfg.upload_url with
  | none => (Except.error "No upload URL configured", [])
  | some _ =>
    let _body := uploadBody compressFn cfg.compress_output report
    let res := uploadWithRetry oracle cfg.upload_retries
    if res.1.success then (Except.ok (pyOrEmpty res.1.response_data), res.2)
    else (Except.error (uploadFailMsg res.1.attempts (optErrStr res.1.error)), res.2)

/-- Embeds SnailCore.collect_and_upload (core.py lines 164-193): when an
uploader is configured and upload is enabled, the upload runs; a raised
upload exception is caught at this boundary, its message appended to the
report's errors list as Upload failed: cause, and None is returned as the
upload response. The upload outcome (return value or raised message) is
passed in explicitly. -/
def collect_and_upload (report : CollectionReport) (hasUploader upload_enabled : Bool)
    (uploadOutcome : Except String Json) : CollectionReport × Option Json :=
  if hasUploader && upload_enabled then
    match uploadOutcome with
    | .ok resp => (report, some resp)
    | .error e => ({ report with errors := report.errors ++ ["Upload failed: " ++ e] }, none)
  else (report, none)

/-- The canonical event trace of a retry-engine run whose attempts were
a, a+1, ..., m, with the capped exponential backoff sleep between each
pair of consecutive attempts and none after the last. -/
def traceFrom (a m : Nat) : List Event :=
  if a = m then [Event.request a]
  else if h : a < m then
    Event.request a :: Event.sleep (min (2 ^ a) 30) :: traceFrom (a + 1) m
  else []
termination_by m - a

/-- A concrete configuration used to evaluate the definitions. -/
def sampleConfig : Config :=
  { upload_url := some "https://collect.example/api/v1/upload"
  , upload_retries := 3, compress_output := false }

/-- An oracle for an endpoint that always answers with status 500. -/
def oracle500 : Nat → AttemptOutcome :=
  fun _ => AttemptOutcome.resp { status_code := 500, text := "server error" }

/-- An oracle for an endpoint that answers 401 on every attempt. -/
def oracle401 : Nat → AttemptOutcome :=
  fun _ => AttemptOutcome.resp { status_code := 401, text := "unauthorized" }

/-- An oracle for an endpoint that answers 200 with body null. -/
def oracle200null : Nat → AttemptOutcome :=
  fun _ => AttemptOutcome.resp { status_code := 200, text := "null", jsonBody := some Json.null }

/-- The identity on byte lists, standing in for gzip in witnesses. -/
def idBytes : List Nat → List Nat := fun bs => bs

/-- A degenerate JSON byte decoder used in witnesses. -/
def noDecode : List Nat → Option Json := fun _ => none

/-- What the configured output directory path names on disk. -/
inductive DirState where
  | dir
  | file
  | absent
deriving DecidableEq, Repr

/-- The candidate locations for the host-id file when an output directory
d is configured: the file host-id under d, or under parent(d) when d
names an existing regular file. -/
inductive HostIdLoc where
  | underDir
  | underParent
deriving DecidableEq, Repr

/-- The filesystem state get_host_id interacts with, for a fixed
configured output directory d: what d itself names, the contents of the
two candidate host-id files, and whether writes succeed. -/
structure HostFS where
  dState : DirState
  atDir : Option String := none
  atParent : Option String := none
  writable : Bool := true
deriving Repr

/-- Embeds _get_host_id_path (host_id.py lines 82-88) for a configured,
non-empty output directory: host-id under d when d is a directory or does
not exist, under parent(d) when d names an existing file. -/
def getHostIdPath (fs : HostFS) : HostIdLoc :=
  match fs.dState with
  | .dir => .underDir
  | .absent => .underDir
  | .file => .underParent

/-- Content of the host-id file at a resolved location. -/
def readLoc (fs : HostFS) : HostIdLoc → Option String
  | .underDir => fs.atDir
  | .underParent => fs.atParent

/-- Overwrites the host-id file at a resolved location. -/
def writeLoc (fs : HostFS) (loc : HostIdLoc) (s : String) : HostFS :=
  match loc with
  | .underDir => { fs with atDir := some s }
  | .underParent => { fs with atParent := some s }

/-- Models path.parent.mkdir(parents=True, exist_ok=True) before the
write: resolving under d creates d as a directory when it was absent. -/
def mkdirParents (fs : HostFS) : HostIdLoc → HostFS
  | .underDir => { fs with dState := DirState.dir }
  | .underParent => fs

/-- Python str.strip() on the file content (host_id.py line 44). -/
def pyStrip (s : String) : String :=
  String.mk (((s.data.dropWhile Char.isWhitespace).reverse.dropWhile Char.isWhitespace).reverse)

/-- The generate-and-store tail of get_host_id (host_id.py lines 52-68):
create the parent directory and persist the fresh id when the location is
writable; a failed write is swallowed and the fresh id is returned
ephemerally either way. -/
def storeNewId (fresh : String) (fs : HostFS) (loc : HostIdLoc) : String × HostFS :=
  if fs.writable then (fresh, writeLoc (mkdirParents fs loc) loc fresh)
  else (fresh, fs)

/-- Embeds get_host_id (host_id.py lines 24-68) for a configured output
directory. isValid models acceptance by the uuid.UUID constructor; fresh
is the uuid4 string generated during this call. If the resolved file
exists and its stripped content is a valid UUID it is returned unchanged;
otherwise a fresh id is generated, stored best-effort, and returned. -/
def get_host_id (isValid : String → Bool) (fresh : String) (fs : HostFS) : String × HostFS :=
  let loc := getHostIdPath fs
  match readLoc fs loc with
  | some content =>
    let host_id := pyStrip content
    if isValid host_id then (host_id, fs)
    else storeNewId fresh fs loc
  | none => storeNewId fresh fs loc

/-- A sample UUID string for closed evaluations. -/
def sampleUUID : String := "550e8400-e29b-41d4-a716-446655440000"

/-- A sample UUID validity predicate accepting exactly the sample UUID. -/
def sampleIsValid : String → Bool := fun s => s == sampleUUID

/-- A sample intact, writable filesystem with no stored host id. -/
def sampleFS : HostFS := { dState := DirState.absent }

/-- A concrete registry used to evaluate the definitions on closed inputs:
three collectors, two of which fail. -/
def sampleRegistry : List (String × CollectorOutcome) :=
  [ ("system", Except.ok (Json.obj [("os", Json.str "linux")]))
  , ("network", Except.error "boom")
  , ("logs", Except.error "eperm") ]

/-- A concrete report used to evaluate the definitions on closed inputs. -/
def sampleReport : CollectionReport :=
  { hostname := "db01"
  , host_id := "550e8400-e29b-41d4-a716-446655440000"
  , collection_id := "c81d4e2e-bcf2-11e6-869b-7df92533d2db"
  , timestamp := "2026-01-01T00:00:00+00:00"
  , snail_version := "1.0.0"
  , results := [("system", Json.obj [("os", Json.str "linux")])]
  , errors := ["Collector 'network' failed: boom"] }

/-- C5 counterexample: in the serialized body of a concrete report, the
meta section does not contain a key named agent_version — the source
(core.py line 56) writes the agent version under the key snail_version. -/
theorem to_dict_meta_no_agent_version_key :
    ("agent_version" ∈ Json.keys ((Json.lookup (CollectionReport.to_dict sampleReport) "meta").getD Json.null)) = False := by
  decide

/-- C5 (amended): for every report, the serialized body is a JSON object
with exactly the top-level sections meta, data, errors, and meta contains
exactly the keys hostname, host_id, collection_id, timestamp and
snail_version, the last being the agent-version identity field. -/
theorem to_dict_sections (r : CollectionReport) :
    Json.keys (CollectionReport.to_dict r) = ["meta", "data", "errors"]
    ∧ Json.keys ((Json.lookup (CollectionReport.to_dict r) "meta").getD Json.null)
        = ["hostname", "host_id", "collection_id", "timestamp", "snail_version"]
    ∧ Json.lookup (CollectionReport.to_dict r) "data" = some (Json.obj r.results)
    ∧ Json.lookup (CollectionReport.to_dict r) "errors" = some (Json.arr (r.errors.map Json.str)) := by
  refine ⟨rfl, rfl, rfl, rfl⟩

/-- Unfolding lemma for the collector loop: starting from any report, the
loop appends exactly the produced results and errors. -/
theorem runCollectors_eq (cs : List (String × CollectorOutcome)) (rep : CollectionReport) :
    runCollectors rep cs =
      { rep with results := rep.results ++ resultsOf cs, errors := rep.errors ++ errorsOf cs } := by
  induction cs generalizing rep with
  | nil => simp [runCollectors, resultsOf, errorsOf]
  | cons c cs ih =>
    obtain ⟨nm, out⟩ := c
    cases out with
    | ok data =>
      rw [show runCollectors rep ((nm, Except.ok data) :: cs)
            = runCollectors { rep with results := rep.results ++ [(nm, data)] } cs from rfl, ih]
      simp [resultsOf, errorsOf]
    | error e =>
      rw [show runCollectors rep ((nm, Except.error e) :: cs)
            = runCollectors { rep with errors := rep.errors ++ [collectorErrMsg nm e] } cs from rfl, ih]
      simp [resultsOf, errorsOf]

/-- The per-run results and errors counts add up to the attempted count. -/
theorem resultsOf_errorsOf_length (cs : List (String × CollectorOutcome)) :
    (resultsOf cs).length = (cs.filter (fun c => outcomeOk c.2)).length
    ∧ (errorsOf cs).length = (cs.filter (fun c => !outcomeOk c.2)).length
    ∧ (resultsOf cs).length + (errorsOf cs).length = cs.length := by
  induction cs with
  | nil => simp [resultsOf, errorsOf]
  | cons c cs ih =>
    obtain ⟨nm, out⟩ := c
    obtain ⟨ih1, ih2, ih3⟩ := ih
    cases out with
    | ok data =>
      simp only [resultsOf, errorsOf, outcomeOk] at ih1 ih2 ih3 ⊢
      simp only [List.filterMap_cons, List.filter_cons]
      simp
      omega
    | error e =>
      simp only [resultsOf, errorsOf, outcomeOk] at ih1 ih2 ih3 ⊢
      simp only [List.filterMap_cons, List.filter_cons]
      simp
      omega

/-- Characterisation of the names of the produced results entries. -/
theorem mem_resultsOf_keys (cs : List (String × CollectorOutcome)) (nm : String) :
    nm ∈ (resultsOf cs).map Prod.fst ↔ ∃ c, c ∈ cs ∧ c.1 = nm ∧ outcomeOk c.2 = true := by
  induction cs with
  | nil => simp [resultsOf]
  | cons c cs ih =>
    obtain ⟨m, out⟩ := c
    cases out with
    | ok data =>
      simp only [resultsOf, List.filterMap_cons] at ih ⊢
      simp only [List.map_cons, List.mem_cons, ih, outcomeOk]
      constructor
      · rintro (h | ⟨c, hc, h1, h2⟩)
        · exact ⟨(m, Except.ok data), Or.inl rfl, h.symm, rfl⟩
        · exact ⟨c, Or.inr hc, h1, h2⟩
      · rintro ⟨c, (hc | hc), h1, h2⟩
        · subst hc; exact Or.inl h1.symm
        · exact Or.inr ⟨c, hc, h1, h2⟩
    | error e =>
      simp only [resultsOf, List.filterMap_cons] at ih ⊢
      simp only [ih, outcomeOk]
      constructor
      · rintro ⟨c, hc, h1, h2⟩
        exact ⟨c, List.mem_cons_of_mem _ hc, h1, h2⟩
      · rintro ⟨c, hc, h1, h2⟩
        rcases List.mem_cons.mp hc with hc | hc
        · subst hc; simp [outcomeOk] at h2
        · exact ⟨c, hc, h1, h2⟩

/-- C1: running collect over a registry of N collectors (distinct names,
as in the Python dict) of which K fail yields a report with N-K results
entries and K errors entries; every collector lands in exactly one of the
two containers (succeeding names key results, each failing collector
produces exactly its formatted message in errors and no results key), and
the run is total — also when every collector fails. -/
theorem collect_results_errors_partition
    (cs : List (String × CollectorOutcome)) (hn hid cid ts ver : String)
    (hnodup : (cs.map Prod.fst).Nodup) :
    (collect cs hn hid cid ts ver none).results.length
        = (cs.filter (fun c => outcomeOk c.2)).length
    ∧ (collect cs hn hid cid ts ver none).errors.length
        = (cs.filter (fun c => !outcomeOk c.2)).length
    ∧ (collect cs hn hid cid ts ver none).results.length
        + (collect cs hn hid cid ts ver none).errors.length = cs.length
    ∧ (∀ c ∈ cs, outcomeOk c.2 = true
        ↔ c.1 ∈ (collect cs hn hid cid ts ver none).results.map Prod.fst)
    ∧ (∀ c ∈ cs, ∀ e, c.2 = Except.error e →
        collectorErrMsg c.1 e ∈ (collect cs hn hid cid ts ver none).errors
        ∧ c.1 ∉ (collect cs hn hid cid ts ver none).results.map Prod.fst)
    ∧ (collect cs hn hid cid ts ver none).errors = errorsOf cs := by
  have hres : (collect cs hn hid cid ts ver none).results = resultsOf cs := by
    simp [collect, resolveWorkingSet, runCollectors_eq]
  have herr : (collect cs hn hid cid ts ver none).errors = errorsOf cs := by
    simp [collect, resolveWorkingSet, runCollectors_eq]
  obtain ⟨hl1, hl2, hl3⟩ := resultsOf_errorsOf_length cs
  refine ⟨by rw [hres]; exact hl1, by rw [herr]; exact hl2,
          by rw [hres, herr]; exact hl3, ?_, ?_, herr⟩
  · intro c hc
    rw [hres, mem_resultsOf_keys]
    constructor
    · intro hok; exact ⟨c, hc, rfl, hok⟩
    · rintro ⟨c2, hc2, h1, h2⟩
      have : c2 = c := List.inj_on_of_nodup_map hnodup hc2 hc h1
      rw [← this]; exact h2
  · intro c hc e he
    constructor
    · rw [herr]
      exact List.mem_filterMap.mpr ⟨c, hc, by simp [he]⟩
    · rw [hres, mem_resultsOf_keys]
      rintro ⟨c2, hc2, h1, h2⟩
      have : c2 = c := List.inj_on_of_nodup_map hnodup hc2 hc h1
      rw [this, he] at h2
      simp [outcomeOk] at h2

/-- Witness for C1 at a concrete three-collector registry with two
failures: counts are 1 and 2, names partition, and the run returns. -/
theorem collect_results_errors_partition_witness :
    ((sampleRegistry.map Prod.fst).Nodup)
    ∧ ((collect sampleRegistry "h" "i" "c" "t" "v" none).results.length
          = (sampleRegistry.filter (fun c => outcomeOk c.2)).length
        ∧ (collect sampleRegistry "h" "i" "c" "t" "v" none).errors.length
          = (sampleRegistry.filter (fun c => !outcomeOk c.2)).length
        ∧ (collect sampleRegistry "h" "i" "c" "t" "v" none).results.length
          + (collect sampleRegistry "h" "i" "c" "t" "v" none).errors.length = sampleRegistry.length
        ∧ (∀ c ∈ sampleRegistry, outcomeOk c.2 = true
            ↔ c.1 ∈ (collect sampleRegistry "h" "i" "c" "t" "v" none).results.map Prod.fst)
        ∧ (∀ c ∈ sampleRegistry, ∀ e, c.2 = Except.error e →
            collectorErrMsg c.1 e ∈ (collect sampleRegistry "h" "i" "c" "t" "v" none).errors
            ∧ c.1 ∉ (collect sampleRegistry "h" "i" "c" "t" "v" none).results.map Prod.fst)
        ∧ (collect sampleRegistry "h" "i" "c" "t" "v" none).errors = errorsOf sampleRegistry) :=
  ⟨by decide, collect_results_errors_partition sampleRegistry "h" "i" "c" "t" "v" (by decide)⟩

/-- C6: with a None or empty name list every registered collector runs;
with a non-empty list the working set is the intersection of the list with
the registry; a listed name that is not registered is not in the working
set, contributes no results key, and every produced errors entry comes
from a working-set collector — unknown names are silently ignored. -/
theorem collect_unknown_names_ignored
    (cs : List (String × CollectorOutcome)) (ns : List String) (nm : String)
    (hmem : nm ∈ ns) (hreg : nm ∉ cs.map Prod.fst)
    (hn hid cid ts ver : String) :
    resolveWorkingSet cs none = cs
    ∧ resolveWorkingSet cs (some []) = cs
    ∧ resolveWorkingSet cs (some ns) = cs.filter (fun c => ns.contains c.1)
    ∧ nm ∉ (collect cs hn hid cid ts ver (some ns)).results.map Prod.fst
    ∧ (collect cs hn hid cid ts ver (some ns)).errors
        = errorsOf (cs.filter (fun c => ns.contains c.1))
    ∧ nm ∉ (cs.filter (fun c => ns.contains c.1)).map Prod.fst := by
  have hne : ns.isEmpty = false := by
    cases ns with
    | nil => cases hmem
    | cons h t => rfl
  have hws : resolveWorkingSet cs (some ns) = cs.filter (fun c => ns.contains c.1) := by
    simp [resolveWorkingSet, hne]
  have hres : (collect cs hn hid cid ts ver (some ns)).results
      = resultsOf (cs.filter (fun c => ns.contains c.1)) := by
    simp [collect, hws, runCollectors_eq]
  have herr : (collect cs hn hid cid ts ver (some ns)).errors
      = errorsOf (cs.filter (fun c => ns.contains c.1)) := by
    simp [collect, hws, runCollectors_eq]
  refine ⟨rfl, rfl, hws, ?_, herr, ?_⟩
  · rw [hres, mem_resultsOf_keys]
    rintro ⟨c, hc, h1, _⟩
    exact hreg (List.mem_map.mpr ⟨c, List.mem_of_mem_filter hc, h1⟩)
  · intro h
    rcases List.mem_map.mp h with ⟨c, hc, h1⟩
    exact hreg (List.mem_map.mpr ⟨c, List.mem_of_mem_filter hc, h1⟩)

/-- Witness for C6 at a concrete registry and a name list holding one
registered and one unknown name. -/
theorem collect_unknown_names_ignored_witness :
    ("bogus" ∈ ["network", "bogus"]
      ∧ "bogus" ∉ sampleRegistry.map Prod.fst)
    ∧ (resolveWorkingSet sampleRegistry none = sampleRegistry
      ∧ resolveWorkingSet sampleRegistry (some []) = sampleRegistry
      ∧ resolveWorkingSet sampleRegistry (some ["network", "bogus"])
          = sampleRegistry.filter (fun c => (["network", "bogus"] : List String).contains c.1)
      ∧ "bogus" ∉ (collect sampleRegistry "h" "i" "c" "t" "v" (some ["network", "bogus"])).results.map Prod.fst
      ∧ (collect sampleRegistry "h" "i" "c" "t" "v" (some ["network", "bogus"])).errors
          = errorsOf (sampleRegistry.filter (fun c => (["network", "bogus"] : List String).contains c.1))
      ∧ "bogus" ∉ (sampleRegistry.filter (fun c => (["network", "bogus"] : List String).contains c.1)).map Prod.fst) :=
  ⟨⟨by decide, by decide⟩,
    collect_unknown_names_ignored sampleRegistry ["network", "bogus"] "bogus"
      (by decide) (by decide) "h" "i" "c" "t" "v"⟩

/-- Unfolding: the canonical trace at its last attempt. -/
theorem traceFrom_self (a : Nat) : traceFrom a a = [Event.request a] := by
  rw [traceFrom]; simp

/-- Unfolding: the canonical trace before its last attempt. -/
theorem traceFrom_of_lt (a m : Nat) (h : a < m) :
    traceFrom a m = Event.request a :: Event.sleep (min (2 ^ a) 30) :: traceFrom (a + 1) m := by
  rw [traceFrom]
  rw [if_neg (by omega), dif_pos h]

/-- Unfolding: the canonical trace of an empty attempt range. -/
theorem traceFrom_of_gt (a m : Nat) (h : m < a) : traceFrom a m = [] := by
  rw [traceFrom]
  rw [if_neg (by omega), dif_neg (by omega)]

/-- The canonical trace of a nonempty attempt range starts with the post
of its first attempt. -/
theorem traceFrom_head (a m : Nat) (h : a ≤ m) :
    ∃ t, traceFrom a m = Event.request a :: t := by
  rcases Nat.eq_or_lt_of_le h with heq | hlt
  · subst heq; exact ⟨[], traceFrom_self a⟩
  · exact ⟨_, traceFrom_of_lt a m hlt⟩

/-- Shape of the retry-engine trace: running the engine over the attempt
numbers a..N (for any oracle and any recorded last error) produces the
canonical trace of some final attempt m between a and N. -/
theorem retryGo_trace_shape (oracle : Nat → AttemptOutcome) (N : Nat) :
    ∀ (n a : Nat) (le : Option String), 1 ≤ a → a + n = N + 1 →
      ∃ m, m ≤ N ∧ (n = 0 → m + 1 = a) ∧ (n ≠ 0 → a ≤ m) ∧
        (retryGo oracle N le (List.range' a n)).2 = traceFrom a m := by
  intro n
  induction n with
  | zero =>
    intro a le ha hsum
    refine ⟨a - 1, by omega, fun _ => by omega, fun h => absurd rfl h, ?_⟩
    rw [traceFrom_of_gt a (a - 1) (by omega)]
    simp [List.range', retryGo]
  | succ n ih =>
    intro a le ha hsum
    have hrange : List.range' a (n + 1) = a :: List.range' (a + 1) n := List.range'_succ a n 1
    have hstep : ∀ msg : String,
        ∃ m, m ≤ N ∧ (n + 1 = 0 → m + 1 = a) ∧ (n + 1 ≠ 0 → a ≤ m) ∧
          backoffEvents N a ++ (retryGo oracle N (some msg) (List.range' (a + 1) n)).2
            = traceFrom a m := by
      intro msg
      rcases Nat.eq_zero_or_pos n with hn | hn
      · subst hn
        have ha2 : a = N := by omega
        refine ⟨a, by omega, fun h => by simp at h, fun _ => le_refl a, ?_⟩
        rw [show List.range' (a + 1) 0 = [] from rfl]
        simp [retryGo, backoffEvents, ha2, traceFrom_self]
      · obtain ⟨m, hm1, _, hm3, htr⟩ := ih (a + 1) (some msg) (by omega) (by omega)
        have ham : a + 1 ≤ m := hm3 (by omega)
        refine ⟨m, hm1, fun h => by simp at h, fun _ => by omega, ?_⟩
        rw [htr, backoffEvents, if_pos (by omega : a < N), traceFrom_of_lt a m (by omega)]
        rfl
    rw [hrange]
    cases horacle : oracle a with
    | resp r =>
      by_cases hok : r.status_code < 400
      · refine ⟨a, by omega, fun h => by simp at h, fun _ => le_refl a, ?_⟩
        simp [retryGo, horacle, hok, traceFrom_self]
      · by_cases hterm : r.status_code = 400 ∨ r.status_code = 401
            ∨ r.status_code = 403 ∨ r.status_code = 404
        · refine ⟨a, by omega, fun h => by simp at h, fun _ => le_refl a, ?_⟩
          simp [retryGo, horacle, hok, hterm, traceFrom_self]
        · obtain ⟨m, h1, h2, h3, h4⟩ := hstep (httpErrMsg r)
          refine ⟨m, h1, h2, h3, ?_⟩
          simp only [retryGo, horacle, if_neg hok, if_neg hterm]
          exact h4
    | timeout =>
      obtain ⟨m, h1, h2, h3, h4⟩ := hstep "Request timed out"
      refine ⟨m, h1, h2, h3, ?_⟩
      simp only [retryGo, horacle]
      exact h4
    | connectionError e =>
      obtain ⟨m, h1, h2, h3, h4⟩ := hstep ("Connection error: " ++ e)
      refine ⟨m, h1, h2, h3, ?_⟩
      simp only [retryGo, horacle]
      exact h4
    | requestError e =>
      obtain ⟨m, h1, h2, h3, h4⟩ := hstep ("Request error: " ++ e)
      refine ⟨m, h1, h2, h3, ?_⟩
      simp only [retryGo, horacle]
      exact h4

/-- In a canonical trace starting at attempt 1, every sleep immediately
preceding the post of attempt k has duration min(2^(k-1), 30), and k ≥ 2. -/
theorem traceFrom_sleep_spec :
    ∀ (n a m d k : Nat), m - a = n → 1 ≤ a →
      [Event.sleep d, Event.request k] <:+: traceFrom a m →
      2 ≤ k ∧ d = min (2 ^ (k - 1)) 30 := by
  intro n
  induction n with
  | zero =>
    intro a m d k hn ha hinf
    rcases Nat.lt_or_ge m a with h | h
    · rw [traceFrom_of_gt a m h] at hinf
      have := hinf.length_le
      simp at this
    · have heq : a = m := by omega
      subst heq
      rw [traceFrom_self] at hinf
      have := hinf.length_le
      simp at this
  | succ n ih =>
    intro a m d k hn ha hinf
    have hlt : a < m := by omega
    rw [traceFrom_of_lt a m hlt] at hinf
    rcases List.infix_cons_iff.mp hinf with hpre | hinf2
    · rcases List.cons_prefix_cons.mp hpre with ⟨heq, _⟩
      simp at heq
    · rcases List.infix_cons_iff.mp hinf2 with hpre | hinf3
      · rcases List.cons_prefix_cons.mp hpre with ⟨heq, hpre2⟩
        have hd : d = min (2 ^ a) 30 := by
          simpa using heq
        obtain ⟨t, hht⟩ := traceFrom_head (a + 1) m (by omega)
        rw [hht] at hpre2
        rcases List.cons_prefix_cons.mp hpre2 with ⟨heq2, _⟩
        have hk : k = a + 1 := by simpa using heq2
        subst hk
        exact ⟨by omega, by simpa using hd⟩
      · exact ih (a + 1) m d k (by omega) (by omega) hinf3

/-- A canonical trace over attempts a..m ends with the post of attempt m:
in particular it never ends with a sleep. -/
theorem traceFrom_getLast :
    ∀ (n a m : Nat), m - a = n → a ≤ m →
      (traceFrom a m).getLast? = some (Event.request m) := by
  intro n
  induction n with
  | zero =>
    intro a m hn ha
    have heq : a = m := by omega
    subst heq
    rw [traceFrom_self]
    rfl
  | succ n ih =>
    intro a m hn ha
    have hlt : a < m := by omega
    obtain ⟨t, hht⟩ := traceFrom_head (a + 1) m (by omega)
    rw [traceFrom_of_lt a m hlt, List.getLast?_cons_cons, hht, List.getLast?_cons_cons, ← hht]
    exact ih (a + 1) m (by omega) (by omega)

/-- C4: for every oracle and maximum attempt count N ≥ 1, the retry engine
trace is the canonical trace of attempts 1..m for some 1 ≤ m ≤ N: every
backoff sleep inserted before retry attempt k satisfies k ≥ 2 and lasts
min(2^(k-1), 30) seconds, and the trace ends with a post, never a sleep —
no backoff occurs after the final attempt. -/
theorem upload_backoff_schedule (oracle : Nat → AttemptOutcome) (N : Nat) (hN : 1 ≤ N) :
    ∃ m, 1 ≤ m ∧ m ≤ N ∧ (uploadWithRetry oracle N).2 = traceFrom 1 m
      ∧ (∀ d k, [Event.sleep d, Event.request k] <:+: (uploadWithRetry oracle N).2 →
          2 ≤ k ∧ d = min (2 ^ (k - 1)) 30)
      ∧ (uploadWithRetry oracle N).2.getLast? = some (Event.request m) := by
  obtain ⟨m, hm1, _, hm3, htr⟩ :=
    retryGo_trace_shape oracle N N 1 none (le_refl 1) (by omega)
  have h1m : 1 ≤ m := hm3 (by omega)
  have htr2 : (uploadWithRetry oracle N).2 = traceFrom 1 m := htr
  refine ⟨m, h1m, hm1, htr2, ?_, ?_⟩
  · intro d k hinf
    rw [htr2] at hinf
    exact traceFrom_sleep_spec (m - 1) 1 m d k rfl (le_refl 1) hinf
  · rw [htr2]
    exact traceFrom_getLast (m - 1) 1 m rfl h1m

/-- Witness for C4: a single-attempt run against a 200 endpoint. -/
theorem upload_backoff_schedule_witness :
    1 ≤ 1
    ∧ (∃ m, 1 ≤ m ∧ m ≤ 1 ∧ (uploadWithRetry oracle200null 1).2 = traceFrom 1 m
        ∧ (∀ d k, [Event.sleep d, Event.request k] <:+: (uploadWithRetry oracle200null 1).2 →
            2 ≤ k ∧ d = min (2 ^ (k - 1)) 30)
        ∧ (uploadWithRetry oracle200null 1).2.getLast? = some (Event.request m)) :=
  ⟨le_refl 1, upload_backoff_schedule oracle200null 1 (le_refl 1)⟩

/-- Against an oracle whose every response is retryable, the engine posts
once per remaining attempt, records the HTTP error as last error, and
reports the configured attempt total. -/
theorem retryGo_all_retryable (oracle : Nat → AttemptOutcome) (N : Nat) (r : HttpResponse)
    (hok : ¬ r.status_code < 400)
    (hterm : ¬(r.status_code = 400 ∨ r.status_code = 401
        ∨ r.status_code = 403 ∨ r.status_code = 404))
    (horacle : ∀ k, oracle k = AttemptOutcome.resp r) :
    ∀ (n a : Nat) (le : Option String),
      (retryGo oracle N le (List.range' a n)).1
        = { success := false
          , error := if n = 0 then le else some (httpErrMsg r)
          , attempts := N }
      ∧ ((retryGo oracle N le (List.range' a n)).2.countP isRequestEv) = n := by
  intro n
  induction n with
  | zero =>
    intro a le
    exact ⟨by simp [List.range', retryGo], by simp [List.range', retryGo]⟩
  | succ n ih =>
    intro a le
    rw [List.range'_succ a n 1]
    simp only [retryGo, horacle a, if_neg hok, if_neg hterm]
    obtain ⟨ih1, ih2⟩ := ih (a + 1) (some (httpErrMsg r))
    constructor
    · rw [ih1]
      simp
    · rw [List.countP_append, ih2]
      have hb : (backoffEvents N a).countP isRequestEv = 1 := by
        by_cases h : a < N
        · simp [backoffEvents, h, isRequestEv]
        · simp [backoffEvents, h, isRequestEv]
      omega

/-- C2: with N ≥ 1 configured attempts and an endpoint that always sends
the same retryable status (any non-2xx/3xx status outside {400, 401, 403,
404}, such as 500), upload posts exactly N requests and raises one
UploadError whose message names the attempt total N and the last recorded
HTTP cause. -/
theorem upload_always_retryable_raises
    (cfg : Config) (url : String) (report : CollectionReport)
    (compressFn : List Nat → List Nat) (oracle : Nat → AttemptOutcome) (r : HttpResponse)
    (hurl : cfg.upload_url = some url) (hN : 1 ≤ cfg.upload_retries)
    (hok : ¬ r.status_code < 400)
    (hterm : ¬(r.status_code = 400 ∨ r.status_code = 401
        ∨ r.status_code = 403 ∨ r.status_code = 404))
    (horacle : ∀ k, oracle k = AttemptOutcome.resp r) :
    (Uploader.upload cfg report compressFn oracle).1
      = Except.error (uploadFailMsg cfg.upload_retries (httpErrMsg r))
    ∧ ((Uploader.upload cfg report compressFn oracle).2.countP isRequestEv)
      = cfg.upload_retries := by
  obtain ⟨h1, h2⟩ :=
    retryGo_all_retryable oracle cfg.upload_retries r hok hterm horacle
      cfg.upload_retries 1 none
  have hN0 : cfg.upload_retries ≠ 0 := by omega
  simp only [Uploader.upload, hurl, uploadWithRetry]
  rw [h1]
  simp [hN0, optErrStr, h2]

/-- Witness for C2: three configured attempts against a constant-500
endpoint post exactly three times and raise the three-attempt message. -/
theorem upload_always_retryable_raises_witness :
    (sampleConfig.upload_url = some "https://collect.example/api/v1/upload"
      ∧ 1 ≤ sampleConfig.upload_retries
      ∧ ¬ (500 : Nat) < 400
      ∧ (∀ k, oracle500 k
          = AttemptOutcome.resp { status_code := 500, text := "server error" }))
    ∧ ((Uploader.upload sampleConfig sampleReport idBytes oracle500).1
        = Except.error (uploadFailMsg sampleConfig.upload_retries
            (httpErrMsg { status_code := 500, text := "server error" }))
      ∧ ((Uploader.upload sampleConfig sampleReport idBytes oracle500).2.countP isRequestEv)
        = sampleConfig.upload_retries) :=
  ⟨⟨rfl, by decide, by decide, fun k => rfl⟩,
    upload_always_retryable_raises sampleConfig "https://collect.example/api/v1/upload"
      sampleReport idBytes oracle500 { status_code := 500, text := "server error" }
      rfl (by decide) (by decide) (by decide) (fun k => rfl)⟩

/-- C3: a first response with status in the non-retryable set {400, 401,
403, 404} makes upload perform exactly one post — the whole trace is that
single request event, so no backoff sleep — and raise the terminal
UploadError to the caller, for every configured attempt count ≥ 1. -/
theorem upload_non_retryable_single_attempt
    (cfg : Config) (url : String) (report : CollectionReport)
    (compressFn : List Nat → List Nat) (oracle : Nat → AttemptOutcome) (r : HttpResponse)
    (hurl : cfg.upload_url = some url) (hN : 1 ≤ cfg.upload_retries)
    (h1 : oracle 1 = AttemptOutcome.resp r)
    (hterm : r.status_code = 400 ∨ r.status_code = 401
        ∨ r.status_code = 403 ∨ r.status_code = 404) :
    (Uploader.upload cfg report compressFn oracle).2 = [Event.request 1]
    ∧ (Uploader.upload cfg report compressFn oracle).1
        = Except.error (uploadFailMsg 1 (httpErrMsg r)) := by
  have hok : ¬ r.status_code < 400 := by rcases hterm with h | h | h | h <;> omega
  obtain ⟨n, hn⟩ : ∃ n, cfg.upload_retries = n + 1 := ⟨cfg.upload_retries - 1, by omega⟩
  simp only [Uploader.upload, hurl, uploadWithRetry, hn]
  rw [List.range'_succ 1 n 1]
  simp only [retryGo, h1, if_neg hok, if_pos hterm]
  simp [optErrStr]

/-- Witness for C3: a constant-401 endpoint with three configured
attempts posts once and raises the one-attempt message. -/
theorem upload_non_retryable_single_attempt_witness :
    (sampleConfig.upload_url = some "https://collect.example/api/v1/upload"
      ∧ 1 ≤ sampleConfig.upload_retries
      ∧ oracle401 1 = AttemptOutcome.resp { status_code := 401, text := "unauthorized" }
      ∧ ((401 : Nat) = 400 ∨ (401 : Nat) = 401 ∨ (401 : Nat) = 403 ∨ (401 : Nat) = 404))
    ∧ ((Uploader.upload sampleConfig sampleReport idBytes oracle401).2 = [Event.request 1]
      ∧ (Uploader.upload sampleConfig sampleReport idBytes oracle401).1
          = Except.error (uploadFailMsg 1 (httpErrMsg { status_code := 401, text := "unauthorized" }))) :=
  ⟨⟨rfl, by decide, rfl, by decide⟩,
    upload_non_retryable_single_attempt sampleConfig "https://collect.example/api/v1/upload"
      sampleReport idBytes oracle401 { status_code := 401, text := "unauthorized" }
      rfl (by decide) rfl (by decide)⟩

/-- The Python falsy-fallback expression never yields None. -/
theorem pyOrEmpty_ne_null (o : Option Json) : pyOrEmpty o ≠ Json.null := by
  cases o with
  | none => simp [pyOrEmpty]
  | some v =>
    by_cases hf : v.isFalsy
    · simp [pyOrEmpty, hf]
    · simp only [pyOrEmpty, if_neg hf]
      rintro rfl
      simp [Json.isFalsy] at hf

/-- C10: a 2xx response whose body JSON-decodes to a falsy value makes
upload return the empty object rather than the decoded value, and a
successful upload never returns None, whatever the endpoint does. -/
theorem upload_falsy_body_yields_empty
    (cfg : Config) (url : String) (report : CollectionReport)
    (compressFn : List Nat → List Nat) (oracle : Nat → AttemptOutcome)
    (r : HttpResponse) (v : Json)
    (hurl : cfg.upload_url = some url) (hN : 1 ≤ cfg.upload_retries)
    (h1 : oracle 1 = AttemptOutcome.resp r)
    (hjson : r.jsonBody = some v)
    (h2a : 200 ≤ r.status_code) (h2b : r.status_code < 300)
    (hfalsy : v.isFalsy = true) :
    (Uploader.upload cfg report compressFn oracle).1 = Except.ok (Json.obj [])
    ∧ ∀ (oracle2 : Nat → AttemptOutcome) (j : Json),
        (Uploader.upload cfg report compressFn oracle2).1 = Except.ok j → j ≠ Json.null := by
  constructor
  · have hok : r.status_code < 400 := by omega
    obtain ⟨n, hn⟩ : ∃ n, cfg.upload_retries = n + 1 := ⟨cfg.upload_retries - 1, by omega⟩
    simp only [Uploader.upload, hurl, uploadWithRetry, hn]
    rw [List.range'_succ 1 n 1]
    simp only [retryGo, h1, if_pos hok, hjson]
    simp [pyOrEmpty, hfalsy]
  · intro oracle2 j hj
    simp only [Uploader.upload, hurl, uploadWithRetry] at hj
    split at hj
    · rw [show (Except.ok (pyOrEmpty (retryGo oracle2 cfg.upload_retries none
          (List.range' 1 cfg.upload_retries)).1.response_data), (retryGo oracle2
          cfg.upload_retries none (List.range' 1 cfg.upload_retries)).2).1
          = Except.ok (pyOrEmpty (retryGo oracle2 cfg.upload_retries none
          (List.range' 1 cfg.upload_retries)).1.response_data) from rfl] at hj
      injection hj with hj2
      rw [← hj2]
      exact pyOrEmpty_ne_null _
    · simp at hj

/-- Witness for C10: a 200 response whose body decodes to null makes
upload return the empty object. -/
theorem upload_falsy_body_yields_empty_witness :
    (sampleConfig.upload_url = some "https://collect.example/api/v1/upload"
      ∧ 1 ≤ sampleConfig.upload_retries
      ∧ oracle200null 1
          = AttemptOutcome.resp { status_code := 200, text := "null", jsonBody := some Json.null }
      ∧ Json.isFalsy Json.null = true)
    ∧ ((Uploader.upload sampleConfig sampleReport idBytes oracle200null).1
        = Except.ok (Json.obj [])
      ∧ ∀ (oracle2 : Nat → AttemptOutcome) (j : Json),
          (Uploader.upload sampleConfig sampleReport idBytes oracle2).1
            = Except.ok j → j ≠ Json.null) :=
  ⟨⟨rfl, by decide, rfl, rfl⟩,
    upload_falsy_body_yields_empty sampleConfig "https://collect.example/api/v1/upload"
      sampleReport idBytes oracle200null
      { status_code := 200, text := "null", jsonBody := some Json.null } Json.null
      rfl (by decide) rfl rfl (by decide) (by decide) rfl⟩

/-- C7: the upload body with compression enabled, once decompressed (for
any decompressor that inverts the compressor, as gzip.decompress inverts
gzip.compress), is byte-identical to the body with compression disabled
for the same report — so any JSON decoder yields equal structures — and
the compressed transport is marked with the Content-Encoding gzip header. -/
theorem upload_compression_transparent
    (compressFn decompressFn : List Nat → List Nat)
    (hround : ∀ bs, decompressFn (compressFn bs) = bs)
    (report : CollectionReport) (decode : List Nat → Option Json) :
    decompressFn (uploadBody compressFn true report).1 = (uploadBody compressFn false report).1
    ∧ decode (decompressFn (uploadBody compressFn true report).1)
        = decode ((uploadBody compressFn false report).1)
    ∧ (uploadBody compressFn true report).2 = [("Content-Encoding", "gzip")] := by
  have hb : decompressFn (uploadBody compressFn true report).1
      = (uploadBody compressFn false report).1 := by
    simp [uploadBody, hround]
  exact ⟨hb, by rw [hb], rfl⟩

/-- Witness for C7 with the identity compressor on the sample report. -/
theorem upload_compression_transparent_witness :
    (∀ bs, idBytes (idBytes bs) = bs)
    ∧ (idBytes (uploadBody idBytes true sampleReport).1
        = (uploadBody idBytes false sampleReport).1
      ∧ noDecode (idBytes (uploadBody idBytes true sampleReport).1)
          = noDecode ((uploadBody idBytes false sampleReport).1)
      ∧ (uploadBody idBytes true sampleReport).2 = [("Content-Encoding", "gzip")]) :=
  ⟨fun _ => rfl,
    upload_compression_transparent idBytes idBytes (fun _ => rfl) sampleReport noDecode⟩

/-- C9: when the upload step raises, collect_and_upload swallows the
exception: it returns the report with exactly one new errors entry of the
form Upload failed: cause appended (results untouched) and None as the
upload response — an entry that need not name any attempted collector. -/
theorem collect_and_upload_catches (report : CollectionReport) (e : String) :
    (collect_and_upload report true true (Except.error e)).2 = none
    ∧ (collect_and_upload report true true (Except.error e)).1.errors
        = report.errors ++ ["Upload failed: " ++ e]
    ∧ (collect_and_upload report true true (Except.error e)).1.errors.length
        = report.errors.length + 1
    ∧ (collect_and_upload report true true (Except.error e)).1.results = report.results := by
  refine ⟨rfl, rfl, by simp [collect_and_upload], rfl⟩

/-- A freshly stored host id is found again by the next lookup: after the
generate-and-store tail runs on a writable filesystem, a further
get_host_id call returns exactly the stored id. -/
theorem get_host_id_after_store
    (isValid : String → Bool) (f1 f2 : String) (fs : HostFS) (hw : fs.writable = true)
    (hv : isValid f1 = true) (hstrip : pyStrip f1 = f1) :
    (get_host_id isValid f2 (storeNewId f1 fs (getHostIdPath fs)).2).1 = f1 := by
  have hpath : getHostIdPath (writeLoc (mkdirParents fs (getHostIdPath fs)) (getHostIdPath fs) f1)
      = getHostIdPath fs := by
    cases h : fs.dState <;> simp [getHostIdPath, mkdirParents, writeLoc, h]
  have hrd : readLoc (writeLoc (mkdirParents fs (getHostIdPath fs)) (getHostIdPath fs) f1)
      (getHostIdPath fs) = some f1 := by
    cases h : fs.dState <;> simp [getHostIdPath, mkdirParents, writeLoc, readLoc, h]
  simp [storeNewId, hw, get_host_id, hpath, hrd, hstrip, hv]

/-- C8: on an intact filesystem whose resolved host-id location is
readable (reads of an existing file succeed, as the embedding assumes) and
writable, two successive get_host_id calls for the same directory return
the same id string — whatever the file held initially and whatever fresh
UUIDs the two calls would generate. -/
theorem get_host_id_stable
    (isValid : String → Bool) (f1 f2 : String) (fs : HostFS)
    (hw : fs.writable = true)
    (hv : isValid f1 = true) (hstrip : pyStrip f1 = f1) :
    (get_host_id isValid f2 (get_host_id isValid f1 fs).2).1
      = (get_host_id isValid f1 fs).1 := by
  have hstore : (get_host_id isValid f2 (storeNewId f1 fs (getHostIdPath fs)).2).1
      = (storeNewId f1 fs (getHostIdPath fs)).1 := by
    rw [get_host_id_after_store isValid f1 f2 fs hw hv hstrip]
    simp [storeNewId, hw]
  cases hread : readLoc fs (getHostIdPath fs) with
  | some content =>
    by_cases hvc : isValid (pyStrip content)
    · simp [get_host_id, hread, hvc]
    · simp only [get_host_id, hread, if_neg hvc]
      exact hstore
  | none =>
    simp only [get_host_id, hread]
    exact hstore

/-- Witness for C8: a writable filesystem with no stored id and a
concrete UUID generator value. -/
theorem get_host_id_stable_witness :
    (sampleFS.writable = true
      ∧ sampleIsValid sampleUUID = true
      ∧ pyStrip sampleUUID = sampleUUID)
    ∧ (get_host_id sampleIsValid "second-call-uuid"
        (get_host_id sampleIsValid sampleUUID sampleFS).2).1
      = (get_host_id sampleIsValid sampleUUID sampleFS).1 :=
  ⟨⟨rfl, by decide, by decide⟩,
    get_host_id_stable sampleIsValid sampleUUID "second-call-uuid" sampleFS
      rfl (by decide) (by decide)⟩

end SnailCore
